import Mathlib

/- Verification development for the a2s game-server query client.

   The transport/reassembly engine (`A2SClient::send` in src/lib.rs), the
   challenge-response exchange (`A2SClient::do_challenge_request`), and the
   record decoders (`Info::from_cursor` in src/info.rs, `Rule::from_cursor`
   in src/rules.rs) are embedded shallowly over byte lists (`List Nat`,
   each element one octet).

   Conventions of the embedding:
   - A received datagram is the list of its bytes.  A `recv` into a buffer of
     size `n` followed by `truncate(read)` yields `datagram.take n`.
   - Rust indexing/slicing that can go out of bounds is modelled with
     `Option` (`byteAt`, `sliceFrom`); an out-of-bounds access surfaces as
     the distinguished `crash` outcome (a Rust index-out-of-range abort).
   - The socket is abstracted by the list of datagrams that arrive, in
     arrival order; an exhausted list models a read that times out, which the
     Rust code surfaces as an io error (`Error::Io`).
   - bzip2 decompression (`BzDecoder::read_exact` into a buffer of the
     declared size) is an external collaborator, abstracted by a parameter
     `bz : List Nat -> Nat -> Option (List Nat)`; `none` models a failed
     `read_exact`.
   - CRC-32 (IEEE 802.3, as computed by `crc::crc32::checksum_ieee`) is
     implemented bit by bit below. -/

namespace A2S

/-- The error enumeration of src/errors.rs (`Error`).  `Io` stands for any
`Error::Io(_)`; the payload of `Other` is dropped. -/
inductive A2SError where
  | Io
  | InvalidResponse
  | MismatchID
  | InvalidBz2Size
  | CheckSumMismatch
  | Other
  deriving DecidableEq, Repr

/-- Result of one call to `A2SClient::send`: a payload or a typed error,
together with the number of datagrams consumed by the reassembly loop
(not counting the first datagram), or `crash` when the Rust code would
abort on an out-of-bounds index/slice. -/
inductive SendOutcome where
  | ok (payload : List Nat) (consumed : Nat)
  | fail (e : A2SError) (consumed : Nat)
  | crash (consumed : Nat)
  deriving DecidableEq, Repr

/-- Result of the reassembly `loop` inside `A2SClient::send`. -/
inductive LoopOut where
  | done (packets : List (Nat × List Nat)) (consumed : Nat)
  | fail (e : A2SError) (consumed : Nat)
  | crash (consumed : Nat)
  deriving DecidableEq, Repr

/-- `buf[i]` as an `Option` (Rust panics when out of range). -/
def byteAt (buf : List Nat) (i : Nat) : Option Nat := buf.get? i

/-- `&buf[i..]` as an `Option`: defined exactly when `i <= buf.len()`. -/
def sliceFrom (buf : List Nat) (i : Nat) : Option (List Nat) :=
  if i ≤ buf.length then some (buf.drop i) else none

/-- `u16::from_le_bytes([buf[i], buf[i+1]])` (the `read_buffer_offset!` macro). -/
def readU16LE (buf : List Nat) (i : Nat) : Option Nat :=
  match byteAt buf i, byteAt buf (i + 1) with
  | some b0, some b1 => some (b0 + 256 * b1)
  | _, _ => none

/-- `u32::from_le_bytes` of `buf[i..i+4]`. -/
def readU32LE (buf : List Nat) (i : Nat) : Option Nat :=
  match byteAt buf i, byteAt buf (i + 1), byteAt buf (i + 2), byteAt buf (i + 3) with
  | some b0, some b1, some b2, some b3 =>
      some (b0 + 256 * b1 + 65536 * b2 + 16777216 * b3)
  | _, _, _, _ => none

/-- Reinterpret a `u32` value as the mathematical value of the `i32` with the
same bits (two's complement). -/
def toI32 (u : Nat) : Int :=
  if u < 2147483648 then (u : Int) else (u : Int) - 4294967296

/-- `i32::from_le_bytes` of `buf[i..i+4]`. -/
def readI32LE (buf : List Nat) (i : Nat) : Option Int :=
  (readU32LE buf i).map toI32

/-- `i32::to_le_bytes` / `write_i32::<LittleEndian>`: the four bytes of the
two's-complement representation, least significant first. -/
def writeI32LE (v : Int) : List Nat :=
  let u := (v % 4294967296).toNat
  [u % 256, u / 256 % 256, u / 65536 % 256, u / 16777216 % 256]

/-- One shift step of the reflected CRC-32 (polynomial 0xEDB88320). -/
def crc32Step (c : Nat) : Nat :=
  if c % 2 = 1 then (c / 2) ^^^ 0xEDB88320 else c / 2

/-- Feed one byte into a running CRC-32 state. -/
def crc32Byte (c b : Nat) : Nat :=
  crc32Step (crc32Step (crc32Step (crc32Step
    (crc32Step (crc32Step (crc32Step (crc32Step (c ^^^ b % 256))))))))

/-- `crc::crc32::checksum_ieee`. -/
def crc32 (data : List Nat) : Nat :=
  (data.foldl crc32Byte 0xFFFFFFFF) ^^^ 0xFFFFFFFF

/-- Offset at which a loop-received fragment's payload starts: the code
slices at `OFS_MP_SS_PAYLOAD` (12) when the response id's high bit is
clear and at `OFS_MP_SS_PAYLOAD_BZ2` (20) when it is set. -/
def payloadOffset (idU : Nat) : Nat :=
  if idU &&& 0x80000000 = 0 then 12 else 20

/-- Stable insertion of a fragment into a list sorted by ordinal
(`sort_by_key(|p| p.number)` is a stable sort). -/
def insertPacket (p : Nat × List Nat) : List (Nat × List Nat) → List (Nat × List Nat)
  | [] => [p]
  | q :: qs => if q.1 < p.1 then q :: insertPacket p qs else p :: q :: qs

/-- `packets.sort_by_key(|p| p.number)` as a stable insertion sort. -/
def sortPackets (l : List (Nat × List Nat)) : List (Nat × List Nat) :=
  l.foldr insertPacket []

/-- The aggregation step: concatenate the payloads in list order. -/
def joinPayloads (l : List (Nat × List Nat)) : List Nat :=
  (l.map Prod.snd).flatten

/-- The reassembly `loop` of `A2SClient::send` (src/lib.rs lines 306-342):
receive a datagram into a `switching_size` buffer, reject length `<= 9`,
reject a mismatched id, push `(data[OFS_MP_SS_NUMBER], payload-slice)`, and
stop when the number of pushed fragments equals `total`.  `c` counts the
datagrams consumed by the loop. -/
def recvLoop (ss total idU : Nat) (packets : List (Nat × List Nat)) :
    List (List Nat) → Nat → LoopOut
  | [], c => .fail .Io c
  | d :: rs, c =>
    let data := d.take ss
    if data.length ≤ 9 then .fail .InvalidResponse (c + 1)
    else
      match readU32LE data 4 with
      | none => .crash (c + 1)
      | some pid =>
        if pid ≠ idU then .fail .MismatchID (c + 1)
        else
          match byteAt data 9, sliceFrom data (payloadOffset idU) with
          | some num, some pl =>
            let packets' := packets ++ [(num, pl)]
            if packets'.length = total then .done packets' (c + 1)
            else recvLoop ss total idU packets' rs (c + 1)
          | _, _ => .crash (c + 1)

/-- The tail of the multi-packet branch of `A2SClient::send` (src/lib.rs
lines 344-374): sort by ordinal, concatenate, and, when the id's high bit is
set, read the declared decompressed size and CRC-32 from the *first*
datagram (`data` at that point again denotes the first datagram, the loop's
`data` being scoped to the loop body), enforce the 1 MiB bound, decompress
and verify the checksum. -/
def finishMulti (bz : List Nat → Nat → Option (List Nat)) (data0 : List Nat)
    (idU : Nat) (packets : List (Nat × List Nat)) (c : Nat) : SendOutcome :=
  let aggregation := joinPayloads (sortPackets packets)
  if idU &&& 0x80000000 ≠ 0 then
    match readU32LE data0 12, readU32LE data0 16 with
    | some dsize, some ck =>
      if dsize > 1048576 then .fail .InvalidBz2Size c
      else
        match bz aggregation dsize with
        | none => .fail .Io c
        | some dec =>
          if crc32 dec ≠ ck then .fail .CheckSumMismatch c else .ok dec c
    | _, _ => .crash c
  else .ok aggregation c

/-- `A2SClient::send` (src/lib.rs lines 270-378), after the request has been
transmitted.  `maxSize` is `self.max_size`; `first` is the datagram answered
to the request (received into a `max_size` buffer); `rest` lists the
datagrams that would arrive on subsequent `recv` calls; `bz` abstracts
bzip2 decompression. -/
def sendM (maxSize : Nat) (bz : List Nat → Nat → Option (List Nat))
    (first : List Nat) (rest : List (List Nat)) : SendOutcome :=
  let data := first.take maxSize
  match readI32LE data 0 with
  | none => .crash 0
  | some header =>
    if header = -1 then .ok (data.drop 4) 0
    else if header = -2 then
      match readU32LE data 4, byteAt data 8, readU16LE data 10 with
      | some idU, some total, some ss =>
        if ss > maxSize ∨ total > 32 then .fail .InvalidResponse 0
        else
          match byteAt data 9, sliceFrom data 16 with
          | some n0, some p0 =>
            match recvLoop ss total idU [(n0, p0)] rest 0 with
            | .done packets c => finishMulti bz data idU packets c
            | .fail e c => .fail e c
            | .crash c => .crash c
          | _, _ => .crash 0
      | _, _, _ => .crash 0
    else .fail .InvalidResponse 0

/-- A decompressor that always fails; used for concrete uncompressed runs,
where the decompressor is never consulted. -/
def bzNone : List Nat → Nat → Option (List Nat) := fun _ _ => none

/-- A loop datagram that the reassembly loop accepts and parses: long enough
(truncated to `ss`) to pass the length test and to be sliced at the payload
offset, and carrying the established response id. -/
def validFrag (ss idU : Nat) (d : List Nat) : Prop :=
  9 < (d.take ss).length ∧ readU32LE (d.take ss) 4 = some idU ∧
    payloadOffset idU ≤ (d.take ss).length

instance validFragDecidable (ss idU : Nat) (d : List Nat) :
    Decidable (validFrag ss idU d) := by
  unfold validFrag
  infer_instance

/-- Ordinal (`data[OFS_MP_SS_NUMBER]`) of a loop datagram. -/
def fragNumber (ss : Nat) (d : List Nat) : Nat := (d.take ss).getD 9 0

/-- Payload slice of a loop datagram. -/
def fragPayload (ss idU : Nat) (d : List Nat) : List Nat :=
  (d.take ss).drop (payloadOffset idU)

theorem byteAt_lt {l : List Nat} {i : Nat} (h : i < l.length) :
    byteAt l i = some (l.getD i 0) := by
  simp [byteAt, List.getD_eq_getElem?_getD, List.get?_eq_getElem?,
    List.getElem?_eq_getElem h]

theorem sliceFrom_le {l : List Nat} {i : Nat} (h : i ≤ l.length) :
    sliceFrom l i = some (l.drop i) := by
  simp [sliceFrom, h]

/-- When every remaining datagram is a valid fragment and the declared total
is exactly the collected-so-far count plus the number of remaining datagrams,
the loop consumes them all and returns the fragments in arrival order. -/
theorem recvLoop_valid {ss idU : Nat} :
    ∀ (rest : List (List Nat)) (init : List (Nat × List Nat)) (c total : Nat),
      (∀ d ∈ rest, validFrag ss idU d) → rest ≠ [] →
      init.length + rest.length = total →
      recvLoop ss total idU init rest c =
        .done (init ++ rest.map (fun d => (fragNumber ss d, fragPayload ss idU d)))
          (c + rest.length) := by
  intro rest
  induction rest with
  | nil => intro init c total _ hne _; exact absurd rfl hne
  | cons d rs ih =>
    intro init c total hval _ hlen
    obtain ⟨h9, hid, hoff⟩ := hval d (List.mem_cons_self d rs)
    have hnum := byteAt_lt (show 9 < (d.take ss).length by omega)
    have hsl := sliceFrom_le hoff
    simp only [recvLoop]
    rw [if_neg (by omega : ¬ (d.take ss).length ≤ 9)]
    simp only [hid]
    rw [if_neg (by simp : ¬ idU ≠ idU)]
    simp only [hnum, hsl]
    cases rs with
    | nil =>
      rw [if_pos (by simp at hlen ⊢; omega)]
      simp [fragNumber, fragPayload]
    | cons e es =>
      rw [if_neg (by simp at hlen ⊢; omega)]
      rw [ih (init ++ [((d.take ss).getD 9 0, (d.take ss).drop (payloadOffset idU))])
        (c + 1) total (fun x hx => hval x (List.mem_cons_of_mem d hx))
        (by simp) (by simp at hlen ⊢; omega)]
      simp [fragNumber, fragPayload]
      omega

/-- Once the collected count has reached (or passed) the declared total, the
loop can never report completion: the equality test is checked only after a
further push. -/
theorem recvLoop_not_done {ss idU : Nat} :
    ∀ (rest : List (List Nat)) (init : List (Nat × List Nat)) (c total : Nat),
      total ≤ init.length →
      ∀ pk cc, recvLoop ss total idU init rest c ≠ .done pk cc := by
  intro rest
  induction rest with
  | nil => intro init c total _ pk cc; simp [recvLoop]
  | cons d rs ih =>
    intro init c total htot pk cc
    simp only [recvLoop]
    by_cases h9 : (d.take ss).length ≤ 9
    · rw [if_pos h9]; simp
    · rw [if_neg h9]
      cases hread : readU32LE (d.take ss) 4 with
      | none => simp
      | some pid =>
        simp only []
        by_cases hpid : pid ≠ idU
        · rw [if_pos hpid]; simp
        · rw [if_neg hpid]
          cases hb : byteAt (d.take ss) 9 with
          | none => simp
          | some num =>
            cases hsl : sliceFrom (d.take ss) (payloadOffset idU) with
            | none => simp
            | some pl =>
              simp only []
              by_cases hfull : (init ++ [(num, pl)]).length = total
              · exfalso; simp at hfull; omega
              · rw [if_neg hfull]
                exact ih _ _ _ (by simp; omega) pk cc

theorem insertPacket_perm (p : Nat × List Nat) (l : List (Nat × List Nat)) :
    List.Perm (insertPacket p l) (p :: l) := by
  induction l with
  | nil => exact List.Perm.refl _
  | cons q qs ih =>
    simp only [insertPacket]
    split
    · exact (ih.cons q).trans (List.Perm.swap p q qs)
    · exact List.Perm.refl _

theorem sortPackets_perm (l : List (Nat × List Nat)) :
    List.Perm (sortPackets l) l := by
  induction l with
  | nil => exact List.Perm.refl _
  | cons p t ih =>
    exact (insertPacket_perm p (sortPackets t)).trans (ih.cons p)

theorem pairwise_insertPacket {p : Nat × List Nat} {l : List (Nat × List Nat)}
    (h : l.Pairwise (fun a b => a.1 ≤ b.1)) :
    (insertPacket p l).Pairwise (fun a b => a.1 ≤ b.1) := by
  induction l with
  | nil => simp [insertPacket]
  | cons q qs ih =>
    rw [List.pairwise_cons] at h
    simp only [insertPacket]
    split
    · next hlt =>
      rw [List.pairwise_cons]
      refine ⟨fun x hx => ?_, ih h.2⟩
      rcases List.mem_cons.mp ((insertPacket_perm p qs).mem_iff.mp hx) with hx | hx
      · subst hx; omega
      · exact h.1 x hx
    · next hlt =>
      rw [List.pairwise_cons]
      refine ⟨fun x hx => ?_, List.pairwise_cons.mpr h⟩
      rcases List.mem_cons.mp hx with hx | hx
      · subst hx; omega
      · exact le_trans (by omega) (h.1 x hx)

theorem sortPackets_pairwise (l : List (Nat × List Nat)) :
    (sortPackets l).Pairwise (fun a b => a.1 ≤ b.1) := by
  induction l with
  | nil => simp [sortPackets]
  | cons p t ih => exact pairwise_insertPacket ih

/-- Two key-sorted lists that are permutations of each other and have
pairwise-distinct keys are equal. -/
theorem sorted_nodupkeys_unique :
    ∀ {l1 l2 : List (Nat × List Nat)}, List.Perm l1 l2 →
      l1.Pairwise (fun a b => a.1 ≤ b.1) →
      l2.Pairwise (fun a b => a.1 ≤ b.1) →
      (l1.map Prod.fst).Nodup → l1 = l2 := by
  intro l1
  induction l1 with
  | nil => intro l2 hperm _ _ _; exact (hperm.symm.eq_nil).symm
  | cons p t1 ih =>
    intro l2 hperm h1 h2 hnd
    cases l2 with
    | nil => exact absurd hperm.eq_nil (by simp)
    | cons q t2 =>
      have hpq : p = q := by
        by_contra hne
        have hp2 : p ∈ t2 := by
          rcases List.mem_cons.mp (hperm.mem_iff.mp (List.mem_cons_self p t1))
            with h | h
          · exact absurd h hne
          · exact h
        have hq1 : q ∈ t1 := by
          rcases List.mem_cons.mp (hperm.symm.mem_iff.mp
            (List.mem_cons_self q t2)) with h | h
          · exact absurd h.symm hne
          · exact h
        have hle1 : p.1 ≤ q.1 := (List.pairwise_cons.mp h1).1 q hq1
        have hle2 : q.1 ≤ p.1 := (List.pairwise_cons.mp h2).1 p hp2
        have hkey : p.1 = q.1 := le_antisymm hle1 hle2
        have : p.1 ∈ t1.map Prod.fst := by
          rw [hkey]; exact List.mem_map_of_mem Prod.fst hq1
        rw [List.map_cons, List.nodup_cons] at hnd
        exact hnd.1 this
      subst hpq
      have ht : t1 = t2 :=
        ih hperm.cons_inv (List.pairwise_cons.mp h1).2
          (List.pairwise_cons.mp h2).2
          (by rw [List.map_cons, List.nodup_cons] at hnd; exact hnd.2)
      rw [ht]

/-- A stable key sort of lists with pairwise-distinct keys depends only on
the multiset of elements. -/
theorem sortPackets_eq_of_perm {l1 l2 : List (Nat × List Nat)} (h : List.Perm l1 l2)
    (hnd : (l1.map Prod.fst).Nodup) : sortPackets l1 = sortPackets l2 := by
  refine sorted_nodupkeys_unique
    ((sortPackets_perm l1).trans (h.trans (sortPackets_perm l2).symm))
    (sortPackets_pairwise l1) (sortPackets_pairwise l2) ?_
  have hp : List.Perm ((sortPackets l1).map Prod.fst) (l1.map Prod.fst) :=
    (sortPackets_perm l1).map Prod.fst
  exact hp.nodup_iff.mpr hnd

theorem finishMulti_congr {bz : List Nat → Nat → Option (List Nat)}
    {data0 : List Nat} {idU c : Nat} {p1 p2 : List (Nat × List Nat)}
    (h : sortPackets p1 = sortPackets p2) :
    finishMulti bz data0 idU p1 c = finishMulti bz data0 idU p2 c := by
  unfold finishMulti
  rw [h]

/-- Reduction of `sendM` through the header parse of a well-formed
multi-packet first datagram that passes the sanity check. -/
theorem sendM_multi_reduce {maxSize : Nat} {bz : List Nat → Nat → Option (List Nat)}
    {first : List Nat} {rest : List (List Nat)} {idU total ss n0 : Nat}
    {p0 : List Nat}
    (hhdr : readI32LE (first.take maxSize) 0 = some (-2))
    (hid : readU32LE (first.take maxSize) 4 = some idU)
    (htot : byteAt (first.take maxSize) 8 = some total)
    (hss : readU16LE (first.take maxSize) 10 = some ss)
    (hsane : ¬(ss > maxSize ∨ total > 32))
    (hn0 : byteAt (first.take maxSize) 9 = some n0)
    (hp0 : sliceFrom (first.take maxSize) 16 = some p0) :
    sendM maxSize bz first rest =
      match recvLoop ss total idU [(n0, p0)] rest 0 with
      | .done packets c => finishMulti bz (first.take maxSize) idU packets c
      | .fail e c => .fail e c
      | .crash c => .crash c := by
  simp only [sendM, hhdr, hid, htot, hss, hn0, hp0]
  rw [if_neg (by norm_num : ¬((-2 : Int) = -1))]
  simp only [if_true]
  rw [if_neg hsane]

/- Concrete datagrams used in witnesses and counterexamples.  All use
response id 7 (or 0x80000000 for the compressed ones) and declared switch
size 30. -/

/-- Multi-packet first datagram: total 2, ordinal 0, payload bytes 1,2 after
the 4-byte legacy artifact. -/
def dgFrag0 : List Nat := [254,255,255,255, 7,0,0,0, 2, 0, 30,0, 255,255,255,255, 1,2]

/-- Loop datagram: ordinal 1, payload bytes 3,4,5,6 (16 bytes in all). -/
def dgFrag1 : List Nat := [254,255,255,255, 7,0,0,0, 2, 1, 30,0, 3,4,5,6]

/-- A 10-byte loop datagram with matching id: passes the `<= 9` length test
but is too short for the `data[12..]` slice. -/
def dgShort10 : List Nat := [254,255,255,255, 7,0,0,0, 0, 0]

/-- A 9-byte loop datagram whose id bytes match the established id. -/
def dgShort9 : List Nat := [254,255,255,255, 7,0,0,0, 2]

/-- A 10-byte loop datagram carrying id 8 instead of 7. -/
def dgWrongId : List Nat := [254,255,255,255, 8,0,0,0, 0, 0]

/-- Multi-packet first datagram declaring total 1. -/
def firstTotal1 : List Nat := [254,255,255,255, 7,0,0,0, 1, 0, 30,0, 255,255,255,255, 1,2]

/-- Multi-packet first datagram declaring total 33 (above the ceiling). -/
def firstTotal33 : List Nat := [254,255,255,255, 7,0,0,0, 33, 0, 30,0, 255,255,255,255]

/-- Loop datagram repeating ordinal 0 (a duplicate of fragment 0). -/
def dgDup0 : List Nat := [254,255,255,255, 7,0,0,0, 2, 0, 9,9]

/-- Multi-packet first datagram declaring total 3 (ordinal 0 of three). -/
def mpFirst3 : List Nat := [254,255,255,255, 7,0,0,0, 3, 0, 30,0, 255,255,255,255, 1,2]

/-- Loop datagram, ordinal 1 of three. -/
def mpFrag1 : List Nat := [254,255,255,255, 7,0,0,0, 3, 1, 30,0, 3,4]

/-- Loop datagram, ordinal 2 of three. -/
def mpFrag2 : List Nat := [254,255,255,255, 7,0,0,0, 3, 2, 30,0, 5,6]

/-- Loop datagram of a compressed response (id 0x80000000), ordinal 1,
22 bytes: bytes 12..19 are part of the payload per the wire format, yet the
code slices at offset 20. -/
def dgBz : List Nat := [254,255,255,255, 0,0,0,128, 0, 1, 0,0, 0,0,0,0, 0,0,0,0, 9,9]

/-- Compressed first datagram: id 0x80000000, total 2, declared decompressed
size 0x200000 (2 MiB) at offset 12, checksum bytes 1,2,3,4 at offset 16. -/
def bzFirst : List Nat := [254,255,255,255, 0,0,0,128, 2, 0, 30,0, 0,0,32,0, 1,2,3,4]

/-- Compressed loop datagram, ordinal 1, exactly 20 bytes (empty payload). -/
def bzFrag1 : List Nat := [254,255,255,255, 0,0,0,128, 2, 1, 30,0, 0,0,0,0, 0,0,0,0]

/-- C1, counterexample: the same set of two fragment datagrams fed in the two
possible arrival orders yields different payloads, because `A2SClient::send`
strips the 4-byte legacy artifact (and 16-byte header) from whichever
datagram arrives first, regardless of its ordinal, and only 12 bytes from
loop-received datagrams.  The claim's permutation invariance fails. -/
theorem c1_counterexample :
    sendM 1400 bzNone dgFrag0 [dgFrag1] = .ok [1,2,3,4,5,6] 1 ∧
    sendM 1400 bzNone dgFrag1 [dgFrag0] = .ok [255,255,255,255,1,2] 1 :=
  ⟨by decide, by decide⟩

/-- C1 (amended): for a multi-packet response whose loop-received datagrams
all carry the established response id and pairwise-distinct ordinals, the
result of `A2SClient::send` is invariant under permutation of the
loop-received datagrams' arrival order, the first datagram held fixed: the
fragments are sorted by ordinal before concatenation.  (Permutations that
change which datagram arrives first are not covered: the 4-byte legacy
artifact is stripped from the first-arrived datagram whatever its ordinal.) -/
theorem c1_reassembly_invariant_under_tail_permutation
    (maxSize : Nat) (bz : List Nat → Nat → Option (List Nat)) (first : List Nat)
    (rest1 rest2 : List (List Nat)) (idU total ss n0 : Nat) (p0 : List Nat)
    (hhdr : readI32LE (first.take maxSize) 0 = some (-2))
    (hid : readU32LE (first.take maxSize) 4 = some idU)
    (htot : byteAt (first.take maxSize) 8 = some total)
    (hss : readU16LE (first.take maxSize) 10 = some ss)
    (hsane : ¬(ss > maxSize ∨ total > 32))
    (hn0 : byteAt (first.take maxSize) 9 = some n0)
    (hp0 : sliceFrom (first.take maxSize) 16 = some p0)
    (hperm : List.Perm rest1 rest2)
    (hval : ∀ d ∈ rest1, validFrag ss idU d)
    (hcount : 1 + rest1.length = total)
    (hnd : (n0 :: rest1.map (fragNumber ss)).Nodup) :
    sendM maxSize bz first rest1 = sendM maxSize bz first rest2 := by
  by_cases hne : rest1 = []
  · have h2 : rest2 = [] := by
      subst hne
      exact (hperm.symm.eq_nil)
    rw [hne, h2]
  · have hne2 : rest2 ≠ [] := by
      intro h
      subst h
      exact hne hperm.eq_nil
    rw [sendM_multi_reduce hhdr hid htot hss hsane hn0 hp0,
        sendM_multi_reduce hhdr hid htot hss hsane hn0 hp0]
    have hlen12 : rest1.length = rest2.length := hperm.length_eq
    simp only [recvLoop_valid rest1 [(n0, p0)] 0 total hval hne
        (by simp; omega),
      recvLoop_valid rest2 [(n0, p0)] 0 total
        (fun d hd => hval d (hperm.mem_iff.mpr hd)) hne2
        (by simp; omega)]
    rw [hlen12]
    refine finishMulti_congr (sortPackets_eq_of_perm
      ((hperm.map _).append_left [(n0, p0)]) ?_)
    simpa [List.map_map, Function.comp] using hnd

/-- C1 witness: a three-fragment response with the two loop datagrams
swapped gives identical results. -/
theorem c1_reassembly_invariant_under_tail_permutation_witness :
    sendM 1400 bzNone mpFirst3 [mpFrag1, mpFrag2] =
      sendM 1400 bzNone mpFirst3 [mpFrag2, mpFrag1] :=
  c1_reassembly_invariant_under_tail_permutation 1400 bzNone mpFirst3
    [mpFrag1, mpFrag2] [mpFrag2, mpFrag1] 7 3 30 0 [1,2]
    (by decide) (by decide) (by decide) (by decide) (by decide) (by decide)
    (by decide) (List.Perm.swap mpFrag2 mpFrag1 []) (by decide) (by decide)
    (by decide)

/-- C2: evaluation at the failing inputs.  A reassembly datagram of length
10 with matching id passes the `data.len() <= 9` test but the slice
`&data[OFS_MP_SS_PAYLOAD..]` is out of bounds, so `A2SClient::send` hits an
index-out-of-range abort rather than returning a typed error; likewise a
first datagram shorter than 4 bytes aborts in the header read. -/
theorem c2_send_crashes_on_short_datagrams :
    sendM 1400 bzNone dgFrag0 [dgShort10] = .crash 1 ∧
    sendM 1400 bzNone [255,255,255] [] = .crash 0 :=
  ⟨by decide, by decide⟩

/-- C4, counterexample: a multi-packet response declaring total = 1 does not
complete from the already-consumed first datagram; the loop performs another
receive first, so with no further datagram available the call fails with the
timeout io error instead of returning the payload. -/
theorem c4_counterexample :
    sendM 1400 bzNone firstTotal1 [] = .fail .Io 0 := by decide

/-- C4 (amended): the completion test compares the number of *pushed*
fragments (duplicates included) with the declared total, and only after at
least one loop receive: (i) a response declaring total = 1 can never return
Ok — the pushed count skips past the total; (ii) with total = 2, a loop
datagram duplicating ordinal `n0` counts toward completion, so the call
returns Ok after exactly one loop receive. -/
theorem c4_completion_counts_pushed_fragments :
    (∀ (maxSize : Nat) (bz : List Nat → Nat → Option (List Nat))
      (first : List Nat) (idU ss n0 : Nat) (p0 : List Nat),
      readI32LE (first.take maxSize) 0 = some (-2) →
      readU32LE (first.take maxSize) 4 = some idU →
      byteAt (first.take maxSize) 8 = some 1 →
      readU16LE (first.take maxSize) 10 = some ss →
      ss ≤ maxSize →
      byteAt (first.take maxSize) 9 = some n0 →
      sliceFrom (first.take maxSize) 16 = some p0 →
      ∀ (rest : List (List Nat)) (pl : List Nat) (c : Nat),
        sendM maxSize bz first rest ≠ .ok pl c) ∧
    (∀ (maxSize : Nat) (bz : List Nat → Nat → Option (List Nat))
      (first d : List Nat) (rest' : List (List Nat)) (idU ss n0 : Nat)
      (p0 : List Nat),
      readI32LE (first.take maxSize) 0 = some (-2) →
      readU32LE (first.take maxSize) 4 = some idU →
      byteAt (first.take maxSize) 8 = some 2 →
      readU16LE (first.take maxSize) 10 = some ss →
      ss ≤ maxSize →
      byteAt (first.take maxSize) 9 = some n0 →
      sliceFrom (first.take maxSize) 16 = some p0 →
      validFrag ss idU d → fragNumber ss d = n0 → idU &&& 0x80000000 = 0 →
      ∃ pl, sendM maxSize bz first (d :: rest') = .ok pl 1) := by
  constructor
  · intro maxSize bz first idU ss n0 p0 hhdr hid htot hss hssle hn0 hp0 rest pl c
    rw [sendM_multi_reduce hhdr hid htot hss (by omega) hn0 hp0]
    cases h : recvLoop ss 1 idU [(n0, p0)] rest 0 with
    | done pk cc =>
      exact absurd h (recvLoop_not_done rest [(n0, p0)] 0 1 (by simp) pk cc)
    | fail e cc => intro hcon; exact SendOutcome.noConfusion hcon
    | crash cc => intro hcon; exact SendOutcome.noConfusion hcon
  · intro maxSize bz first d rest' idU ss n0 p0 hhdr hid htot hss hssle hn0 hp0
      hd hnum hbit
    obtain ⟨h9, hidv, hoff⟩ := hd
    have hb := byteAt_lt (show 9 < (d.take ss).length by omega)
    have hsl := sliceFrom_le hoff
    have hloop : recvLoop ss 2 idU [(n0, p0)] (d :: rest') 0 =
        .done [(n0, p0), ((d.take ss).getD 9 0, (d.take ss).drop (payloadOffset idU))]
          1 := by
      simp only [recvLoop]
      rw [if_neg (by omega : ¬ (d.take ss).length ≤ 9)]
      simp only [hidv]
      rw [if_neg (by simp : ¬ idU ≠ idU)]
      simp only [hb, hsl]
      rw [if_pos (by simp)]
      simp
    rw [sendM_multi_reduce hhdr hid htot hss (by omega) hn0 hp0]
    simp only [hloop]
    refine ⟨joinPayloads (sortPackets
      [(n0, p0), ((d.take ss).getD 9 0, (d.take ss).drop (payloadOffset idU))]), ?_⟩
    simp only [finishMulti]
    rw [if_neg (by simp [hbit])]

/-- C4 witness: with total 1 and payload [1,2] the call does not return that
payload; with total 2 a duplicated ordinal-0 datagram completes the call
after one loop receive. -/
theorem c4_completion_counts_pushed_fragments_witness :
    (sendM 1400 bzNone firstTotal1 [] ≠ .ok [1,2] 0) ∧
    (∃ pl, sendM 1400 bzNone dgFrag0 [dgDup0] = .ok pl 1) :=
  ⟨c4_completion_counts_pushed_fragments.1 1400 bzNone firstTotal1 7 30 0 [1,2]
      (by decide) (by decide) (by decide) (by decide) (by decide) (by decide)
      (by decide) [] [1,2] 0,
   c4_completion_counts_pushed_fragments.2 1400 bzNone dgFrag0 dgDup0 [] 7 30 0
      [1,2] (by decide) (by decide) (by decide) (by decide) (by decide)
      (by decide) (by decide) (by decide) (by decide) (by decide)⟩

/-- C5, counterexample: in a compressed response (high bit of the id set)
the payload slice of a loop-received fragment starts at byte offset 20, not
at offset 12 as the claim states for both cases. -/
theorem c5_counterexample :
    recvLoop 100 2 2147483648 [(0, [7])] [dgBz] 0 =
      .done [(0, [7]), (1, [9,9])] 1 ∧
    (dgBz.take 100).drop 12 ≠ [9,9] :=
  ⟨by decide, by decide⟩

/-- C5 (amended): for every fragment after the first, the payload slice
taken by `A2SClient::send` starts at byte offset 12 when the response id's
high (compressed) bit is clear, and at byte offset 20 (after the 8 bytes
read as decompressed-size/CRC fields) when it is set. -/
theorem c5_tail_payload_offsets :
    (∀ (ss total idU : Nat) (init : List (Nat × List Nat))
      (rest : List (List Nat)) (c : Nat),
      idU &&& 0x80000000 = 0 →
      (∀ d ∈ rest, validFrag ss idU d) → rest ≠ [] →
      init.length + rest.length = total →
      recvLoop ss total idU init rest c =
        .done (init ++ rest.map (fun d => (fragNumber ss d, (d.take ss).drop 12)))
          (c + rest.length)) ∧
    (∀ (ss total idU : Nat) (init : List (Nat × List Nat))
      (rest : List (List Nat)) (c : Nat),
      idU &&& 0x80000000 ≠ 0 →
      (∀ d ∈ rest, validFrag ss idU d) → rest ≠ [] →
      init.length + rest.length = total →
      recvLoop ss total idU init rest c =
        .done (init ++ rest.map (fun d => (fragNumber ss d, (d.take ss).drop 20)))
          (c + rest.length)) := by
  constructor
  · intro ss total idU init rest c hbit hval hne hlen
    rw [recvLoop_valid rest init c total hval hne hlen]
    simp [fragPayload, payloadOffset, hbit]
  · intro ss total idU init rest c hbit hval hne hlen
    rw [recvLoop_valid rest init c total hval hne hlen]
    simp [fragPayload, payloadOffset, hbit]

/-- C5 witness: the compressed-case offset at a concrete fragment. -/
theorem c5_tail_payload_offsets_witness :
    recvLoop 100 2 2147483648 [(0, [7])] [dgBz] 0 =
      .done ([(0, [7])] ++ [dgBz].map (fun d => (fragNumber 100 d, (d.take 100).drop 20)))
        (0 + 1) :=
  c5_tail_payload_offsets.2 100 2 2147483648 [(0, [7])] [dgBz] 0
    (by decide) (by decide) (by decide) (by decide)

/-- C6: in a compressed multi-packet response, once reassembly has completed,
a declared decompressed size above 1 MiB makes `A2SClient::send` return
`Error::InvalidBz2Size` whatever the decompressor would do (it is never
consulted); otherwise, when decompression succeeds but the CRC-32 of the
decompressed bytes differs from the declared checksum, the call returns
`Error::CheckSumMismatch`. -/
theorem c6_bz2_size_bound_and_checksum
    (maxSize : Nat) (first : List Nat) (rest : List (List Nat))
    (idU total ss n0 : Nat) (p0 : List Nat) (pk : List (Nat × List Nat))
    (c dsize ck : Nat)
    (hhdr : readI32LE (first.take maxSize) 0 = some (-2))
    (hid : readU32LE (first.take maxSize) 4 = some idU)
    (htot : byteAt (first.take maxSize) 8 = some total)
    (hss : readU16LE (first.take maxSize) 10 = some ss)
    (hsane : ¬(ss > maxSize ∨ total > 32))
    (hn0 : byteAt (first.take maxSize) 9 = some n0)
    (hp0 : sliceFrom (first.take maxSize) 16 = some p0)
    (hbit : idU &&& 0x80000000 ≠ 0)
    (hloop : recvLoop ss total idU [(n0, p0)] rest 0 = .done pk c)
    (hdsz : readU32LE (first.take maxSize) 12 = some dsize)
    (hck : readU32LE (first.take maxSize) 16 = some ck) :
    (dsize > 1048576 →
      ∀ bz, sendM maxSize bz first rest = .fail .InvalidBz2Size c) ∧
    (dsize ≤ 1048576 →
      ∀ (bz : List Nat → Nat → Option (List Nat)) (dec : List Nat),
        bz (joinPayloads (sortPackets pk)) dsize = some dec →
        crc32 dec ≠ ck →
        sendM maxSize bz first rest = .fail .CheckSumMismatch c) := by
  constructor
  · intro hgt bz
    rw [sendM_multi_reduce hhdr hid htot hss hsane hn0 hp0]
    simp only [hloop, finishMulti]
    rw [if_pos hbit]
    simp only [hdsz, hck]
    rw [if_pos hgt]
  · intro hle bz dec hbz hcrc
    rw [sendM_multi_reduce hhdr hid htot hss hsane hn0 hp0]
    simp only [hloop, finishMulti]
    rw [if_pos hbit]
    simp only [hdsz, hck]
    rw [if_neg (by omega : ¬ dsize > 1048576)]
    simp only [hbz]
    rw [if_pos hcrc]

/-- C6 witness: a compressed response declaring a 2 MiB decompressed size is
rejected with `InvalidBz2Size` (decompressor never consulted). -/
theorem c6_bz2_size_bound_and_checksum_witness :
    sendM 1400 bzNone bzFirst [bzFrag1] = .fail .InvalidBz2Size 1 :=
  (c6_bz2_size_bound_and_checksum 1400 bzFirst [bzFrag1] 2147483648 2 30 0
      [1,2,3,4] [(0,[1,2,3,4]),(1,[])] 1 2097152 67305985
      (by decide) (by decide) (by decide) (by decide) (by decide) (by decide)
      (by decide) (by decide) (by decide) (by decide) (by decide)).1
    (by decide) bzNone

/-- C7: if the multi-packet envelope declares a total fragment count above
32 or a switch size above the configured maximum datagram size, the call
fails with `Error::InvalidResponse` immediately — zero datagrams are
consumed by the loop, for every possible stream of further datagrams. -/
theorem c7_envelope_sanity_bound
    (maxSize : Nat) (bz : List Nat → Nat → Option (List Nat))
    (first : List Nat) (rest : List (List Nat)) (idU total ss : Nat)
    (hhdr : readI32LE (first.take maxSize) 0 = some (-2))
    (hid : readU32LE (first.take maxSize) 4 = some idU)
    (htot : byteAt (first.take maxSize) 8 = some total)
    (hss : readU16LE (first.take maxSize) 10 = some ss)
    (hbad : ss > maxSize ∨ total > 32) :
    sendM maxSize bz first rest = .fail .InvalidResponse 0 := by
  simp only [sendM, hhdr, hid, htot, hss]
  rw [if_neg (by norm_num : ¬((-2 : Int) = -1))]
  simp only [if_true]
  rw [if_pos hbad]

/-- C7 witness: total 33 is rejected with no loop receive. -/
theorem c7_envelope_sanity_bound_witness :
    sendM 1400 bzNone firstTotal33 [] = .fail .InvalidResponse 0 :=
  c7_envelope_sanity_bound 1400 bzNone firstTotal33 [] 7 33 30
    (by decide) (by decide) (by decide) (by decide) (by decide)

/-- C8, counterexample: a loop datagram of exactly 9 bytes whose id bytes
match the established response id is rejected with `InvalidResponse` — the
code's test is `data.len() <= 9`, so 9 bytes is already fatal, contradicting
the claim that only datagrams shorter than 9 bytes are rejected. -/
theorem c8_counterexample :
    sendM 1400 bzNone dgFrag0 [dgShort9] = .fail .InvalidResponse 1 := by decide

/-- C8 (amended): a loop-received datagram is rejected on length grounds
exactly when its truncated length is at most 9 bytes (so an exactly-9-byte
datagram is rejected even with matching id), while a datagram of 10 or more
bytes passes the length test and proceeds to the id comparison. -/
theorem c8_loop_length_threshold :
    (∀ (ss total idU : Nat) (pk : List (Nat × List Nat)) (d : List Nat)
      (rs : List (List Nat)) (c : Nat),
      (d.take ss).length ≤ 9 →
      recvLoop ss total idU pk (d :: rs) c = .fail .InvalidResponse (c + 1)) ∧
    (∀ (ss total idU : Nat) (pk : List (Nat × List Nat)) (d : List Nat)
      (rs : List (List Nat)) (c : Nat) (pid : Nat),
      9 < (d.take ss).length → readU32LE (d.take ss) 4 = some pid →
      pid ≠ idU →
      recvLoop ss total idU pk (d :: rs) c = .fail .MismatchID (c + 1)) := by
  constructor
  · intro ss total idU pk d rs c h
    simp only [recvLoop]
    rw [if_pos h]
  · intro ss total idU pk d rs c pid hlen hread hpid
    simp only [recvLoop]
    rw [if_neg (by omega : ¬ (d.take ss).length ≤ 9)]
    simp only [hread]
    rw [if_pos hpid]

/-- C8 witness: the 9-byte matching-id datagram is rejected; a 10-byte
datagram with a different id reaches the id test and fails there. -/
theorem c8_loop_length_threshold_witness :
    recvLoop 30 2 7 [(0, [1,2])] [dgShort9] 0 = .fail .InvalidResponse 1 ∧
    recvLoop 30 2 7 [(0, [1,2])] [dgWrongId] 0 = .fail .MismatchID 1 :=
  ⟨c8_loop_length_threshold.1 30 2 7 [(0, [1,2])] dgShort9 [] 0 (by decide),
   c8_loop_length_threshold.2 30 2 7 [(0, [1,2])] dgWrongId [] 0 8
     (by decide) (by decide) (by decide)⟩

/- ------------------------------------------------------------------
   Challenge-response exchange (`A2SClient::do_challenge_request`).
   ------------------------------------------------------------------ -/

/-- `Cursor::write_all` at a given position: overwrite bytes starting at
`pos`, extending the vector (zero-filling a gap) when needed. -/
def cursorOverwrite (v : List Nat) (pos : Nat) (w : List Nat) : List Nat :=
  if pos ≤ v.length then v.take pos ++ w ++ v.drop (pos + w.length)
  else v ++ List.replicate (pos - v.length) 0 ++ w

/-- `A2SClient::do_challenge_request` (src/lib.rs lines 380-403), with the
transport abstracted: `responses` lists the payloads the successive `send`
calls would deliver (an exhausted list models a timed-out exchange).  The
second component records the request payloads actually sent. -/
def doChallengeRequest (hdr : List Nat) (responses : List (List Nat)) :
    Except A2SError (List Nat) × List (List Nat) :=
  let packet1 := hdr ++ writeI32LE (-1)
  match responses with
  | [] => (.error .Io, [packet1])
  | r1 :: rest =>
    match byteAt r1 0 with
    | none => (.error .Io, [packet1])
    | some h =>
      if h ≠ 65 then (.error .InvalidResponse, [packet1])
      else
        match readI32LE r1 1 with
        | none => (.error .Io, [packet1])
        | some chal =>
          let packet2 := cursorOverwrite packet1 5 (writeI32LE chal)
          match rest with
          | [] => (.error .Io, [packet1, packet2])
          | r2 :: _ => (.ok r2, [packet1, packet2])

theorem writeI32LE_length (v : Int) : (writeI32LE v).length = 4 := rfl

theorem cursorOverwrite_header {hdr v4 w : List Nat} (h5 : hdr.length = 5)
    (hv : v4.length = 4) (hw : w.length = 4) :
    cursorOverwrite (hdr ++ v4) 5 w = hdr ++ w := by
  unfold cursorOverwrite
  rw [if_pos (by simp [h5, hv])]
  have ht : (hdr ++ v4).take 5 = hdr := by
    rw [← h5, List.take_left]
  have hd : (hdr ++ v4).drop (5 + w.length) = [] := by
    apply List.drop_eq_nil_of_le
    simp [h5, hv, hw]
  rw [ht, hd, List.append_nil]

/-- C9: the challenge exchange sends `header ++ (-1 : i32 le)`; when the
first response's first byte is not the marker `'A'` (65) it fails with
`Error::InvalidResponse` having sent only that one request; when the marker
matches, the 4-byte little-endian signed token after it is extracted, the
base header followed by that token is re-sent (the 5-byte base headers make
`set_position(5)` land exactly after the header), and the second response is
returned unmodified. -/
theorem c9_challenge_exchange :
    (∀ (hdr r1 : List Nat) (rs : List (List Nat)) (b : Nat),
      byteAt r1 0 = some b → b ≠ 65 →
      doChallengeRequest hdr (r1 :: rs) =
        (.error .InvalidResponse, [hdr ++ writeI32LE (-1)])) ∧
    (∀ (hdr r1 r2 : List Nat) (rs : List (List Nat)) (chal : Int),
      hdr.length = 5 → byteAt r1 0 = some 65 → readI32LE r1 1 = some chal →
      doChallengeRequest hdr (r1 :: r2 :: rs) =
        (.ok r2, [hdr ++ writeI32LE (-1), hdr ++ writeI32LE chal])) := by
  constructor
  · intro hdr r1 rs b hb hne
    simp only [doChallengeRequest, hb]
    rw [if_pos hne]
  · intro hdr r1 r2 rs chal h5 hb hread
    simp only [doChallengeRequest, hb, hread]
    rw [if_neg (by simp)]
    rw [cursorOverwrite_header h5 (writeI32LE_length (-1)) (writeI32LE_length chal)]

/-- C9 witness: a rules-style 5-byte header; a response starting with byte
66 is rejected after one request; a response `['A',1,0,0,0]` leads to a
second request carrying token 1 and the second payload is returned. -/
theorem c9_challenge_exchange_witness :
    doChallengeRequest [255,255,255,255,86] [[66]] =
      (.error .InvalidResponse, [[255,255,255,255,86] ++ writeI32LE (-1)]) ∧
    doChallengeRequest [255,255,255,255,86] [[65,1,0,0,0], [69,0,0]] =
      (.ok [69,0,0], [[255,255,255,255,86] ++ writeI32LE (-1),
        [255,255,255,255,86] ++ writeI32LE 1]) :=
  ⟨c9_challenge_exchange.1 [255,255,255,255,86] [66] [] 66 (by decide) (by decide),
   c9_challenge_exchange.2 [255,255,255,255,86] [65,1,0,0,0] [69,0,0] [] 1
     (by decide) (by decide) (by decide)⟩

/- ------------------------------------------------------------------
   Binary cursor and record decoders (src/info.rs, src/rules.rs).
   Strings are modelled as their byte lists.
   ------------------------------------------------------------------ -/

deriving instance DecidableEq for Except

/-- `std::io::Cursor<Vec<u8>>`: a byte buffer plus a read position. -/
structure Cursor where
  buf : List Nat
  pos : Nat
  deriving DecidableEq, Repr

/-- `read_u8`: one byte, io error at end of buffer. -/
def pU8 (st : Cursor) : Except A2SError (Nat × Cursor) :=
  match byteAt st.buf st.pos with
  | some b => .ok (b, ⟨st.buf, st.pos + 1⟩)
  | none => .error .Io

/-- Value of a little-endian byte list. -/
def leNat : List Nat → Nat
  | [] => 0
  | b :: bs => b + 256 * leNat bs

/-- An `n`-byte little-endian `read_exact`-based read. -/
def pBytesLE (n : Nat) (st : Cursor) : Except A2SError (Nat × Cursor) :=
  if st.pos + n ≤ st.buf.length then
    .ok (leNat ((st.buf.drop st.pos).take n), ⟨st.buf, st.pos + n⟩)
  else .error .Io

/-- `read_u16::<LittleEndian>`. -/
def pU16 (st : Cursor) : Except A2SError (Nat × Cursor) := pBytesLE 2 st

/-- `read_u64::<LittleEndian>`. -/
def pU64 (st : Cursor) : Except A2SError (Nat × Cursor) := pBytesLE 8 st

/-- `read_cstring` (src/lib.rs lines 410-425): scan bytes until a zero byte
or end of buffer; never fails; the terminator, when present, is consumed. -/
def pCString (st : Cursor) : List Nat × Cursor :=
  let rem := st.buf.drop st.pos
  let s := rem.takeWhile (fun b => b != 0)
  (s, ⟨st.buf, st.pos + s.length + (if s.length < rem.length then 1 else 0)⟩)

/-- The `edf` read of `Info::from_cursor`: a failed `read_u8` (necessarily
end-of-buffer on a cursor) yields 0 instead of an error. -/
def pEdf (st : Cursor) : Nat × Cursor :=
  match pU8 st with
  | .ok (v, st') => (v, st')
  | .error _ => (0, st)

/-- `ServerType` (src/info.rs). -/
inductive ServerType where
  | Dedicated
  | NonDedicated
  | SourceTV
  deriving DecidableEq, Repr

/-- `ServerType::try_from`: `'d'`/`'i'`/`'p'`, anything else is a fatal
decode error. -/
def ServerType.tryFrom (v : Nat) : Except A2SError ServerType :=
  if v = 100 then .ok .Dedicated
  else if v = 105 then .ok .NonDedicated
  else if v = 112 then .ok .SourceTV
  else .error .Other

/-- `ServerOS` (src/info.rs). -/
inductive ServerOS where
  | Linux
  | Windows
  | Mac
  deriving DecidableEq, Repr

/-- `ServerOS::try_from`: `'l'`/`'w'`/`'m' | 'o'`, anything else fatal. -/
def ServerOS.tryFrom (v : Nat) : Except A2SError ServerOS :=
  if v = 108 then .ok .Linux
  else if v = 119 then .ok .Windows
  else if v = 109 ∨ v = 111 then .ok .Mac
  else .error .Other

/-- `TheShipMode` with its open `From<u8>` (unrecognized values map to
`Unknown`). -/
inductive TheShipMode where
  | Hunt
  | Elimination
  | Duel
  | Deathmatch
  | VIPTeam
  | TeamElimination
  | Unknown
  deriving DecidableEq, Repr

def TheShipMode.fromNat (v : Nat) : TheShipMode :=
  if v = 0 then .Hunt
  else if v = 1 then .Elimination
  else if v = 2 then .Duel
  else if v = 3 then .Deathmatch
  else if v = 4 then .VIPTeam
  else if v = 5 then .TeamElimination
  else .Unknown

/-- `TheShip` block (present exactly when the decoder sees app id 2400). -/
structure TheShip where
  mode : TheShipMode
  witnesses : Nat
  duration : Nat
  deriving DecidableEq, Repr

/-- `ExtendedServerInfo`: the four edf-gated optional fields. -/
structure ExtendedServerInfo where
  port : Option Nat
  steam_id : Option Nat
  keywords : Option (List Nat)
  game_id : Option Nat
  deriving DecidableEq, Repr

/-- `SourceTVInfo`: spectator port and name. -/
structure SourceTVInfo where
  port : Nat
  name : List Nat
  deriving DecidableEq, Repr

/-- The fixed part of `Info` read before the edf byte. -/
structure InfoCore where
  protocol : Nat
  name : List Nat
  map : List Nat
  folder : List Nat
  game : List Nat
  app_id : Nat
  players : Nat
  max_players : Nat
  bots : Nat
  server_type : ServerType
  server_os : ServerOS
  visibility : Bool
  vac : Bool
  the_ship : Option TheShip
  version : List Nat
  deriving DecidableEq, Repr

/-- `Info` (src/info.rs). -/
structure Info where
  protocol : Nat
  name : List Nat
  map : List Nat
  folder : List Nat
  game : List Nat
  app_id : Nat
  players : Nat
  max_players : Nat
  bots : Nat
  server_type : ServerType
  server_os : ServerOS
  visibility : Bool
  vac : Bool
  the_ship : Option TheShip
  version : List Nat
  edf : Nat
  extended_server_info : ExtendedServerInfo
  source_tv : Option SourceTVInfo
  deriving DecidableEq, Repr

/-- `Info::from_cursor` up to and including the version string: type byte
0x49, protocol, four strings, app id, counts, server type/os, two boolean
flags, conditional TheShip block, version. -/
def infoThroughVersion (st : Cursor) : Except A2SError (InfoCore × Cursor) :=
  (pU8 st).bind fun (t, st) =>
  if t ≠ 73 then .error .InvalidResponse else
  (pU8 st).bind fun (protocol, st) =>
  let (name, st) := pCString st
  let (map, st) := pCString st
  let (folder, st) := pCString st
  let (game, st) := pCString st
  (pU16 st).bind fun (app_id, st) =>
  (pU8 st).bind fun (players, st) =>
  (pU8 st).bind fun (max_players, st) =>
  (pU8 st).bind fun (bots, st) =>
  (pU8 st).bind fun (stb, st) =>
  (ServerType.tryFrom stb).bind fun server_type =>
  (pU8 st).bind fun (osb, st) =>
  (ServerOS.tryFrom osb).bind fun server_os =>
  (pU8 st).bind fun (visb, st) =>
  (pU8 st).bind fun (vacb, st) =>
  (if app_id = 2400 then
    (pU8 st).bind fun (m, st) =>
    (pU8 st).bind fun (w, st) =>
    (pU8 st).bind fun (du, st) =>
    .ok (some (⟨TheShipMode.fromNat m, w, du⟩ : TheShip), st)
  else .ok (none, st)).bind fun (the_ship, st) =>
  let (version, st) := pCString st
  .ok (⟨protocol, name, map, folder, game, app_id, players, max_players, bots,
    server_type, server_os, visb != 0, vacb != 0, the_ship, version⟩, st)

/-- An edf-gated fixed-width optional field (`if edf & mask != 0 then
Some(read?) else None`). -/
def pOptNum (cond : Prop) [Decidable cond]
    (rd : Cursor → Except A2SError (Nat × Cursor)) (st : Cursor) :
    Except A2SError (Option Nat × Cursor) :=
  if cond then (rd st).map (fun p => (some p.1, p.2)) else .ok (none, st)

/-- The edf-gated keywords string. -/
def pOptKeywords (cond : Prop) [Decidable cond] (st : Cursor) :
    Except A2SError (Option (List Nat) × Cursor) :=
  if cond then
    let p := pCString st
    .ok (some p.1, p.2)
  else .ok (none, st)

/-- The edf-gated SourceTV block (port then name). -/
def pOptSourceTV (cond : Prop) [Decidable cond] (st : Cursor) :
    Except A2SError (Option SourceTVInfo × Cursor) :=
  if cond then
    (pU16 st).bind fun p =>
    let q := pCString p.2
    .ok (some (⟨p.1, q.1⟩ : SourceTVInfo), q.2)
  else .ok (none, st)

/-- `Info::from_cursor` (src/info.rs lines 252-341): the fixed part, then
the edf byte (end-of-buffer yields 0), then the four gated fields in wire
order, then the gated SourceTV block. -/
def infoFromCursor (st : Cursor) : Except A2SError (Info × Cursor) :=
  (infoThroughVersion st).bind fun cp =>
  let core := cp.1
  let pe := pEdf cp.2
  let edf := pe.1
  (pOptNum (edf &&& 128 ≠ 0) pU16 pe.2).bind fun pp =>
  (pOptNum (edf &&& 16 ≠ 0) pU64 pp.2).bind fun sp =>
  (pOptKeywords (edf &&& 32 ≠ 0) sp.2).bind fun kp =>
  (pOptNum (edf &&& 1 ≠ 0) pU64 kp.2).bind fun gp =>
  (pOptSourceTV (edf &&& 64 ≠ 0) gp.2).bind fun tp =>
  .ok (⟨core.protocol, core.name, core.map, core.folder, core.game,
    core.app_id, core.players, core.max_players, core.bots, core.server_type,
    core.server_os, core.visibility, core.vac, core.the_ship, core.version,
    edf, ⟨pp.1, sp.1, kp.1, gp.1⟩, tp.1⟩, tp.2)

/-- Little-endian bytes of a `u16`. -/
def u16Bytes (v : Nat) : List Nat := [v % 256, v / 256 % 256]

/-- Little-endian bytes of a `u64`/`usize`. -/
def u64Bytes (v : Nat) : List Nat :=
  [v % 256, v / 256 % 256, v / 65536 % 256, v / 16777216 % 256,
   v / 4294967296 % 256, v / 1099511627776 % 256,
   v / 281474976710656 % 256, v / 72057594037927936 % 256]

def ServerType.toByte : ServerType → Nat
  | .Dedicated => 100
  | .NonDedicated => 105
  | .SourceTV => 112

def ServerOS.toByte : ServerOS → Nat
  | .Linux => 108
  | .Windows => 119
  | .Mac => 109

def TheShipMode.toByte : TheShipMode → Nat
  | .Hunt => 0
  | .Elimination => 1
  | .Duel => 2
  | .Deathmatch => 3
  | .VIPTeam => 4
  | .TeamElimination => 5
  | .Unknown => 255

/-- `Info::to_bytes` (src/info.rs lines 195-250): full wire datagram
including the 4-byte single-packet header and the 0x49 discriminant; the
edf byte is emitted only when non-zero; optional fields are emitted by
presence. -/
def Info.to_bytes (i : Info) : List Nat :=
  [255, 255, 255, 255, 73] ++
  [i.protocol] ++ i.name ++ [0] ++ i.map ++ [0] ++ i.folder ++ [0] ++
  i.game ++ [0] ++ u16Bytes i.app_id ++
  [i.players, i.max_players, i.bots, i.server_type.toByte, i.server_os.toByte,
    if i.visibility then 1 else 0, if i.vac then 1 else 0] ++
  (match i.the_ship with
   | some s => [s.mode.toByte, s.witnesses, s.duration]
   | none => []) ++
  i.version ++ [0] ++
  (if i.edf ≠ 0 then [i.edf] else []) ++
  (match i.extended_server_info.port with
   | some p => u16Bytes p
   | none => []) ++
  (match i.extended_server_info.steam_id with
   | some v => u64Bytes v
   | none => []) ++
  (match i.extended_server_info.keywords with
   | some s => s ++ [0]
   | none => []) ++
  (match i.extended_server_info.game_id with
   | some v => u64Bytes v
   | none => []) ++
  (match i.source_tv with
   | some s => u16Bytes s.port ++ s.name ++ [0]
   | none => [])

/-- `Rule` (src/rules.rs): a name/value pair. -/
structure Rule where
  name : List Nat
  value : List Nat
  deriving DecidableEq, Repr

/-- `Rule::to_bytes`: the two null-terminated strings. -/
def Rule.to_bytes (r : Rule) : List Nat := r.name ++ [0] ++ r.value ++ [0]

/-- `Rule::vec_to_bytes` (src/rules.rs lines 29-41): header, discriminant
0x45, then `rules.len().to_le_bytes()` — the count as an 8-byte `usize` —
then the pairs. -/
def Rule.vec_to_bytes (rules : List Rule) : List Nat :=
  [255, 255, 255, 255, 69] ++ u64Bytes rules.length ++
    (rules.map Rule.to_bytes).flatten

/-- The pair-reading loop of `Rule::from_cursor` (string reads never fail). -/
def pRules (n : Nat) (st : Cursor) : List Rule × Cursor :=
  match n with
  | 0 => ([], st)
  | k + 1 =>
    let (nm, st) := pCString st
    let (vl, st) := pCString st
    let (rest, st) := pRules k st
    (⟨nm, vl⟩ :: rest, st)

/-- `Rule::from_cursor` (src/rules.rs lines 54-71): discriminant 0x45, a
2-byte little-endian count, then that many name/value pairs. -/
def Rule.from_cursor (buf : List Nat) : Except A2SError (List Rule) :=
  (pU8 ⟨buf, 0⟩).bind fun (t, st) =>
  if t ≠ 69 then .error .InvalidResponse else
  (pU16 st).bind fun (count, st) =>
  .ok (pRules count st).1

/-- C3: evaluation at the failing input.  Encoding the one-rule list
`[("a","b")]` with `Rule::vec_to_bytes` and decoding the result (after the
4-byte transport header strip that precedes every decoder call) with
`Rule::from_cursor` yields `[("","")]`, not the original list: the encoder
writes the count as an 8-byte `usize` while the decoder reads a 2-byte
count, so six stray zero bytes corrupt the stream. -/
theorem c3_rules_roundtrip_fails :
    Rule.from_cursor ((Rule.vec_to_bytes [⟨[97], [98]⟩]).drop 4) =
      .ok [⟨[], []⟩] ∧ ([⟨[], []⟩] : List Rule) ≠ [⟨[97], [98]⟩] :=
  ⟨by decide, by decide⟩

theorem bind_ok_inv {α β : Type} {m : Except A2SError α}
    {f : α → Except A2SError β} {b : β} (h : m.bind f = .ok b) :
    ∃ a, m = .ok a ∧ f a = .ok b := by
  cases m with
  | error e => simp [Except.bind] at h
  | ok a => exact ⟨a, rfl, by simpa [Except.bind] using h⟩

theorem pOptNum_ok_iff {cond : Prop} [Decidable cond]
    {rd : Cursor → Except A2SError (Nat × Cursor)} {st : Cursor}
    {p : Option Nat × Cursor} (h : pOptNum cond rd st = .ok p) :
    (p.1.isSome = true ↔ cond) := by
  unfold pOptNum at h
  split at h
  · next hc =>
    cases hrd : rd st with
    | error e => rw [hrd] at h; simp [Except.map] at h
    | ok q =>
      rw [hrd] at h
      simp only [Except.map] at h
      cases h
      simp [hc]
  · next hc =>
    cases h
    simp [hc]

theorem pOptKeywords_ok_iff {cond : Prop} [Decidable cond] {st : Cursor}
    {p : Option (List Nat) × Cursor} (h : pOptKeywords cond st = .ok p) :
    (p.1.isSome = true ↔ cond) := by
  unfold pOptKeywords at h
  split at h
  · next hc =>
    cases h
    simp [hc]
  · next hc =>
    cases h
    simp [hc]

theorem pOptSourceTV_ok_iff {cond : Prop} [Decidable cond] {st : Cursor}
    {p : Option SourceTVInfo × Cursor} (h : pOptSourceTV cond st = .ok p) :
    (p.1.isSome = true ↔ cond) := by
  unfold pOptSourceTV at h
  split at h
  · next hc =>
    cases hrd : pU16 st with
    | error e => rw [hrd] at h; simp [Except.bind] at h
    | ok q =>
      rw [hrd] at h
      simp only [Except.bind] at h
      cases h
      simp [hc]
  · next hc =>
    cases h
    simp [hc]

/-- Info payload that ends in the middle of the version string (no null
terminator): `[0x49, protocol 0, four empty strings, app id 0, counts 0,
'd', 'l', 0, 0, then the single byte 118]`. -/
def infoTrunc : List Nat :=
  [73, 0, 0, 0, 0, 0, 0, 0, 0, 0, 0, 100, 108, 0, 0, 118]

/-- Well-formed info payload ending exactly after the version string's null
terminator. -/
def infoEdf0 : List Nat :=
  [73, 1, 65, 0, 66, 0, 67, 0, 68, 0, 0, 0, 2, 16, 0, 100, 108, 1, 0, 118, 0]

/-- C10, counterexample: a buffer exhausted *during* the version-string read
(a field read other than the trailing flags byte) still decodes to Ok — the
version is silently truncated to the bytes read and edf defaults to 0 — in
contradiction with the claim that end-of-buffer during any other field read
yields an error. -/
theorem c10_counterexample :
    infoFromCursor ⟨infoTrunc, 0⟩ =
      .ok (⟨0, [], [], [], [], 0, 0, 0, 0, .Dedicated, .Linux, false, false,
        none, [118], 0, ⟨none, none, none, none⟩, none⟩, ⟨infoTrunc, 16⟩) := by
  decide

/-- C10 (amended): (i) a buffer that ends exactly after the version string's
null terminator decodes to Ok with edf = 0 and every extended-data field
absent; (ii) end-of-buffer during a flag-gated fixed-width read (here the
game port, gated by bit 0x80) is a hard error, never a defaulted value;
(iii) in every successful decode each optional field's presence matches its
edf bit exactly.  (End-of-buffer inside a null-terminated *string* read is
not an error: the string is truncated at the buffer end, see the
counterexample.) -/
theorem c10_eof_policy :
    (∀ (st : Cursor) (core : InfoCore) (st1 : Cursor),
      infoThroughVersion st = .ok (core, st1) → st1.pos = st1.buf.length →
      infoFromCursor st = .ok
        (⟨core.protocol, core.name, core.map, core.folder, core.game,
          core.app_id, core.players, core.max_players, core.bots,
          core.server_type, core.server_os, core.visibility, core.vac,
          core.the_ship, core.version, 0, ⟨none, none, none, none⟩, none⟩,
          st1)) ∧
    (∀ (st : Cursor) (core : InfoCore) (st1 st2 : Cursor) (e : Nat),
      infoThroughVersion st = .ok (core, st1) → pU8 st1 = .ok (e, st2) →
      e &&& 128 ≠ 0 → st2.buf.length < st2.pos + 2 →
      infoFromCursor st = .error .Io) ∧
    (∀ (st : Cursor) (info : Info) (st' : Cursor),
      infoFromCursor st = .ok (info, st') →
      (info.extended_server_info.port.isSome = true ↔ info.edf &&& 128 ≠ 0) ∧
      (info.extended_server_info.steam_id.isSome = true ↔ info.edf &&& 16 ≠ 0) ∧
      (info.extended_server_info.keywords.isSome = true ↔ info.edf &&& 32 ≠ 0) ∧
      (info.extended_server_info.game_id.isSome = true ↔ info.edf &&& 1 ≠ 0) ∧
      (info.source_tv.isSome = true ↔ info.edf &&& 64 ≠ 0)) := by
  refine ⟨?_, ?_, ?_⟩
  · intro st core st1 hthrough hend
    have hu8 : pU8 st1 = .error .Io := by
      unfold pU8
      have hb : byteAt st1.buf st1.pos = none := by
        unfold byteAt
        exact List.get?_eq_none.mpr (by omega)
      rw [hb]
    have hpe : pEdf st1 = (0, st1) := by
      unfold pEdf
      rw [hu8]
    simp only [infoFromCursor, hthrough, Except.bind]
    simp only [hpe]
    simp [pOptNum, pOptKeywords, pOptSourceTV, Except.bind]
  · intro st core st1 st2 e hthrough hedf hbit hshort
    have hu16 : pU16 st2 = .error .Io := by
      unfold pU16 pBytesLE
      rw [if_neg (by omega)]
    have hpe : pEdf st1 = (e, st2) := by
      unfold pEdf
      rw [hedf]
    simp only [infoFromCursor, hthrough, Except.bind]
    simp only [hpe]
    simp [pOptNum, hbit, hu16, Except.map, Except.bind]
  · intro st info st' h
    simp only [infoFromCursor] at h
    obtain ⟨cp, hcp, h⟩ := bind_ok_inv h
    obtain ⟨pp, hpp, h⟩ := bind_ok_inv h
    obtain ⟨sp, hsp, h⟩ := bind_ok_inv h
    obtain ⟨kp, hkp, h⟩ := bind_ok_inv h
    obtain ⟨gp, hgp, h⟩ := bind_ok_inv h
    obtain ⟨tp, htp, h⟩ := bind_ok_inv h
    cases h
    exact ⟨pOptNum_ok_iff hpp, pOptNum_ok_iff hsp, pOptKeywords_ok_iff hkp,
      pOptNum_ok_iff hgp, pOptSourceTV_ok_iff htp⟩

/-- C10 witness: a concrete buffer ending right after the version string's
terminator decodes to the record with edf = 0 and all optional fields
absent. -/
theorem c10_eof_policy_witness :
    infoFromCursor ⟨infoEdf0, 0⟩ =
      .ok (⟨1, [65], [66], [67], [68], 0, 2, 16, 0, .Dedicated, .Linux, true,
        false, none, [118], 0, ⟨none, none, none, none⟩, none⟩,
        ⟨infoEdf0, 21⟩) :=
  c10_eof_policy.1 ⟨infoEdf0, 0⟩
    ⟨1, [65], [66], [67], [68], 0, 2, 16, 0, .Dedicated, .Linux, true, false,
      none, [118]⟩
    ⟨infoEdf0, 21⟩ (by decide) (by decide)

end A2S
